import Mathlib

/-!
Verification development for `server.py` of the `ytv-launcher` repository:
a local bridge service that validates a YouTube URL received over a
websocket, launches `adb` with a fixed argument vector, and relays the
process output back to the client.

The Python source is shallowly embedded below.  Library functions used by
the source (`urllib.parse.urlparse`, `shlex.join`/`quote`, `json.dumps`,
`str.strip`, `bytes.decode(errors="replace")`) are modelled from the
CPython 3.11 standard library, which is the implementation the program
runs on.  Asynchronous behaviour (the websocket read loop, the two output
relays) is embedded as explicit sequential recursion with an explicit
interleaving schedule standing for the scheduler's choices.
-/

/-! ## Generic list/string helpers (kernel-reducible) -/

/-- `s.startswith(pat)` on character lists: first argument is the pattern. -/
def listStarts : List Char → List Char → Bool
  | [], _ => true
  | _ :: _, [] => false
  | p :: ps, c :: cs => (p = c : Bool) && listStarts ps cs

/-- Python `s.startswith(pat)` for strings. -/
def strStarts (s pat : String) : Bool := listStarts pat.data s.data

/-- Python `s.startswith((p1, p2, ...))`: true if some pattern is a prefix. -/
def startsWithAny (s : String) (pats : List String) : Bool :=
  pats.any (fun p => strStarts s p)

/-- The part of `l` after the last occurrence of `c`; all of `l` when `c`
is absent.  This is `l.rpartition(c)[2]` in Python. -/
def afterLast (c : Char) (l : List Char) : List Char :=
  (l.reverse.takeWhile (fun x => x ≠ c)).reverse

/-- ASCII lowercase of a string, as Python `str.lower()` does on ASCII
input.  (Python lowercases all of Unicode; the two can differ only on
non-ASCII characters, and every comparison in the program is against a
fixed ASCII string.) -/
def pyLower (s : String) : String := String.mk (s.data.map Char.toLower)

/-! ## Python 3.11 `urllib.parse.urlparse`, modelled -/

/-- The fields of `SplitResult` / `ParseResult` the program reads. -/
structure ParseResult where
  scheme : String
  netloc : String
  path : String
  params : String
  query : String
  fragment : String
deriving DecidableEq, Repr

/-- `scheme_chars` of `urllib.parse`: ASCII letters, digits, `+`, `-`, `.`. -/
def schemeChar (c : Char) : Bool :=
  c.isAlpha || c.isDigit || c = '+' || c = '-' || c = '.'

/-- `_UNSAFE_URL_BYTES_TO_REMOVE`: urlsplit removes every tab, CR and LF. -/
def removeUnsafe (l : List Char) : List Char :=
  l.filter (fun c => c ≠ '\t' && c ≠ '\r' && c ≠ '\n')

/-- `_WHATWG_C0_CONTROL_OR_SPACE`: the characters U+0000..U+0020. -/
def isC0OrSpace (c : Char) : Bool := c.toNat ≤ 32

/-- `_splitnetloc(url, 2)`: the authority runs until the first of
`/`, `?`, `#`. -/
def netlocEnd (c : Char) : Bool := c = '/' || c = '?' || c = '#'

/-- `urllib.parse.urlsplit(url)` (CPython 3.11, current patch level) with
default arguments, on the five components
(scheme, netloc, path, query, fragment).  `.error` stands for the
`ValueError("Invalid IPv6 URL")` raised on a netloc containing exactly
one of `[`, `]`.  Two checks are modelled as accepting: `_checknetloc`
(a no-op on every ASCII netloc; its NFKC check fires only on selected
non-ASCII netlocs) and `_check_bracketed_host` (which accepts valid
bracketed IPv6/IPvFuture hosts and raises otherwise).  Both concern only
netlocs that are not — and lowercase to nothing that is — in the fixed
allow-list of `is_valid_youtube_url`, so every URL they affect is
rejected both by the code's validator and by the spec's rule, whichever
way they are modelled. -/
def pyUrlsplit (url : String) : Except Unit (String × String × String × String × String) :=
  -- url = url.lstrip(_WHATWG_C0_CONTROL_OR_SPACE)  (leading only)
  let u0 := removeUnsafe (url.data.dropWhile isC0OrSpace)
  -- scheme detection: chars before the first ':' (at index > 0), first
  -- char an ASCII letter, all chars in scheme_chars
  let beforeColon := u0.takeWhile (fun c => c ≠ ':')
  let hasColon : Bool := (u0.dropWhile (fun c => c ≠ ':')).length ≠ 0
  let schemeOk : Bool :=
    hasColon && beforeColon.length ≠ 0 &&
    (match beforeColon with
     | [] => false
     | c :: _ => c.isAlpha) &&
    beforeColon.all schemeChar
  let scheme : List Char := if schemeOk then beforeColon.map Char.toLower else []
  let u1 : List Char := if schemeOk then (u0.dropWhile (fun c => c ≠ ':')).tail else u0
  -- netloc: present iff the remainder starts with "//"
  let hasNetloc : Bool := listStarts ['/', '/'] u1
  let netloc : List Char := if hasNetloc then (u1.drop 2).takeWhile (fun c => !netlocEnd c) else []
  let u2 : List Char := if hasNetloc then (u1.drop 2).dropWhile (fun c => !netlocEnd c) else u1
  if (netloc.contains '[' && !(netloc.contains ']')) ||
     (netloc.contains ']' && !(netloc.contains '[')) then
    Except.error ()
  else
    -- fragment: split at the first '#'
    let u3 := u2.takeWhile (fun c => c ≠ '#')
    let fragment := (u2.dropWhile (fun c => c ≠ '#')).tail
    -- query: split at the first '?'
    let path := u3.takeWhile (fun c => c ≠ '?')
    let query := (u3.dropWhile (fun c => c ≠ '?')).tail
    Except.ok (String.mk scheme, String.mk netloc, String.mk path,
               String.mk query, String.mk fragment)

/-- `uses_params` of `urllib.parse` (CPython 3.11). -/
def usesParams : List String :=
  ["", "ftp", "hdl", "prospero", "http", "imap", "https", "shttp",
   "rtsp", "rtsps", "rtspu", "sip", "sips", "mms", "sftp", "tel"]

/-- `_splitparams(url)`: split parameters off the last path segment. -/
def splitParams (path : List Char) : List Char × List Char :=
  if path.contains '/' then
    -- find ';' at or after the last '/'
    let pre := (path.reverse.dropWhile (fun c => c ≠ '/')).reverse
    let seg := (path.reverse.takeWhile (fun c => c ≠ '/')).reverse
    if seg.contains ';' then
      (pre ++ seg.takeWhile (fun c => c ≠ ';'), (seg.dropWhile (fun c => c ≠ ';')).tail)
    else (path, [])
  else
    (path.takeWhile (fun c => c ≠ ';'), (path.dropWhile (fun c => c ≠ ';')).tail)

/-- `urllib.parse.urlparse(url)` (CPython 3.11) with default arguments. -/
def pyUrlparse (url : String) : Except Unit ParseResult :=
  match pyUrlsplit url with
  | Except.error e => Except.error e
  | Except.ok (scheme, netloc, path, query, fragment) =>
    if usesParams.contains scheme && path.data.contains ';' then
      let (p, par) := splitParams path.data
      Except.ok ⟨scheme, netloc, String.mk p, String.mk par, query, fragment⟩
    else
      Except.ok ⟨scheme, netloc, path, "", query, fragment⟩

/-! ## `is_valid_youtube_url` (src/server.py lines 30-61) -/

/-- The allow-list set literal of `is_valid_youtube_url`. -/
def allowedHosts : List String :=
  ["www.youtube.com", "youtube.com", "m.youtube.com", "youtu.be", "www.youtu.be"]

/-- `is_valid_youtube_url(url)` from `src/server.py`, translated clause by
clause: parse (exceptions → `False`); reject scheme outside
`("http", "https")`; lowercase the netloc and reject it outside the
allow-list; then the host-specific path check. -/
def is_valid_youtube_url (url : String) : Bool :=
  match pyUrlparse url with
  | Except.error _ => false
  | Except.ok u =>
    if u.scheme ≠ "http" && u.scheme ≠ "https" then false
    else
      let host := pyLower u.netloc
      if !(allowedHosts.contains host) then false
      else if host = "youtu.be" || host = "www.youtu.be" then
        -- bool(u.path and u.path != "/")
        u.path ≠ "" && u.path ≠ "/"
      else if host = "youtube.com" || host = "www.youtube.com" || host = "m.youtube.com" then
        startsWithAny u.path ["/watch", "/shorts", "/live", "/embed"]
      else false

/-! ## `shlex.quote` / `shlex.join` (CPython 3.11), used to build the
inner `am start` command string -/

/-- The single-quote character. -/
def squote : Char := '\''

/-- Characters the `_find_unsafe` regex of `shlex` treats as safe under
`re.ASCII`: word characters and `@` `%` `+` `=` `:` `,` `.` slash
hyphen. -/
def shlexSafeChar (c : Char) : Bool :=
  c.isAlphanum || c = '_' || c = '@' || c = '%' || c = '+' || c = '=' ||
  c = ':' || c = ',' || c = '.' || c = '/' || c = '-'

/-- `s.replace("'", "'\"'\"'")`, one character at a time. -/
def shlexEscChar (c : Char) : List Char :=
  if c = squote then [squote, '"', squote, '"', squote] else [c]

/-- `shlex.quote(s)`. -/
def shlexQuote (s : String) : String :=
  if s = "" then String.mk [squote, squote]
  else if s.data.all shlexSafeChar then s
  else String.mk ([squote] ++ s.data.flatMap shlexEscChar ++ [squote])

/-- `shlex.join(args)` = `' '.join(shlex.quote(arg) for arg in args)`. -/
def shlexJoin : List String → String
  | [] => ""
  | [a] => shlexQuote a
  | a :: rest => shlexQuote a ++ " " ++ shlexJoin rest

/-! ## `json.dumps` on a tuple of strings (default `ensure_ascii=True`),
used only for the "Command executed" log line -/

/-- Lowercase hexadecimal digit. -/
def hexDig (n : Nat) : Char :=
  if n < 10 then Char.ofNat (48 + n) else Char.ofNat (87 + n)

/-- `'\u{0:04x}'.format(n)` for `n < 0x10000`. -/
def uEsc (n : Nat) : List Char :=
  ['\\', 'u', hexDig (n / 4096 % 16), hexDig (n / 256 % 16),
   hexDig (n / 16 % 16), hexDig (n % 16)]

/-- JSON escape of one character under `ensure_ascii=True`
(`py_encode_basestring_ascii`): literal for printable ASCII other than
`"` and `\`, two-character escapes from `ESCAPE_DCT`, `\uXXXX` otherwise,
with surrogate pairs above U+FFFF. -/
def jsonEscChar (c : Char) : List Char :=
  if c = '"' then ['\\', '"']
  else if c = '\\' then ['\\', '\\']
  else if c = '\x08' then ['\\', 'b']
  else if c = '\x0c' then ['\\', 'f']
  else if c = '\n' then ['\\', 'n']
  else if c = '\r' then ['\\', 'r']
  else if c = '\t' then ['\\', 't']
  else if 32 ≤ c.toNat && c.toNat ≤ 126 then [c]
  else if c.toNat < 0x10000 then uEsc c.toNat
  else
    let n := c.toNat - 0x10000
    uEsc (0xd800 + n / 1024) ++ uEsc (0xdc00 + n % 1024)

/-- `json.dumps` of one string. -/
def jsonDumpStr (s : String) : String :=
  String.mk (['"'] ++ s.data.flatMap jsonEscChar ++ ['"'])

/-- `json.dumps` of a tuple of strings: a JSON array with `", "`
separators. -/
def jsonDumpStrList (l : List String) : String :=
  "[" ++ String.intercalate ", " (l.map jsonDumpStr) ++ "]"

/-! ## Notifications (the payload of `send`) -/

/-- One outbound message as built by `send(ws, typ, message, **extra)`:
the payload dict `{"type": typ, "message": message}`, plus `returncode`
when present in `extra` (that is, exactly for the `done` notification). -/
structure Notification where
  typ : String
  message : String
  returncode : Option Int := none
deriving DecidableEq, Repr

/-! ## `stream_process_output` (src/server.py lines 69-78) -/

/-- U+FFFD, the replacement character. -/
def replChar : Char := '�'

/-- A UTF-8 continuation byte: `0x80..0xBF`. -/
def isCont (b : UInt8) : Bool := 128 ≤ b.toNat && b.toNat ≤ 191

/-- Admissible second byte of a three-byte sequence led by `b`
(`0xE0 → A0..BF`, `0xED → 80..9F`, otherwise any continuation byte);
this is what excludes overlong encodings and surrogates. -/
def valid3Second (b b2 : UInt8) : Bool :=
  if b.toNat = 0xE0 then 0xA0 ≤ b2.toNat && b2.toNat ≤ 0xBF
  else if b.toNat = 0xED then 0x80 ≤ b2.toNat && b2.toNat ≤ 0x9F
  else isCont b2

/-- Admissible second byte of a four-byte sequence led by `b`
(`0xF0 → 90..BF`, `0xF4 → 80..8F`, otherwise any continuation byte). -/
def valid4Second (b b2 : UInt8) : Bool :=
  if b.toNat = 0xF0 then 0x90 ≤ b2.toNat && b2.toNat ≤ 0xBF
  else if b.toNat = 0xF4 then 0x80 ≤ b2.toNat && b2.toNat ≤ 0x8F
  else isCont b2

/-- One decoding step of the UTF-8 codec on lead byte `b` with the
following bytes `rest`: the character produced (U+FFFD on a maximal
invalid subpart) and how many bytes of `rest` are consumed in addition
to `b`. -/
def utf8Step (b : UInt8) (rest : List UInt8) : Char × Nat :=
  if b.toNat ≤ 0x7F then (Char.ofNat b.toNat, 0)
  else if b.toNat < 0xC2 then (replChar, 0)
  else if b.toNat ≤ 0xDF then
    match rest with
    | b2 :: _ =>
      if isCont b2 then (Char.ofNat ((b.toNat - 0xC0) * 64 + (b2.toNat - 0x80)), 1)
      else (replChar, 0)
    | [] => (replChar, 0)
  else if b.toNat ≤ 0xEF then
    match rest with
    | b2 :: b3 :: _ =>
      if valid3Second b b2 then
        if isCont b3 then
          (Char.ofNat ((b.toNat - 0xE0) * 4096 + (b2.toNat - 0x80) * 64 + (b3.toNat - 0x80)), 2)
        else (replChar, 1)
      else (replChar, 0)
    | [b2] => if valid3Second b b2 then (replChar, 1) else (replChar, 0)
    | [] => (replChar, 0)
  else if b.toNat ≤ 0xF4 then
    match rest with
    | b2 :: b3 :: b4 :: _ =>
      if valid4Second b b2 then
        if isCont b3 then
          if isCont b4 then
            (Char.ofNat ((b.toNat - 0xF0) * 262144 + (b2.toNat - 0x80) * 4096 +
                         (b3.toNat - 0x80) * 64 + (b4.toNat - 0x80)), 3)
          else (replChar, 2)
        else (replChar, 1)
      else (replChar, 0)
    | [b2, b3] =>
      if valid4Second b b2 then
        if isCont b3 then (replChar, 2) else (replChar, 1)
      else (replChar, 0)
    | [b2] => if valid4Second b b2 then (replChar, 1) else (replChar, 0)
    | [] => (replChar, 0)
  else (replChar, 0)

/-- Decoding loop for `utf8DecodeReplace`, structurally recursive on a
fuel argument; each step consumes at least the lead byte, so fuel equal
to the number of bytes always suffices. -/
def utf8DecodeGo : Nat → List UInt8 → List Char
  | _, [] => []
  | 0, _ :: _ => []
  | fuel + 1, b :: rest =>
    (utf8Step b rest).1 :: utf8DecodeGo fuel (rest.drop (utf8Step b rest).2)

/-- `bytes.decode(errors="replace")` with the UTF-8 codec: strict UTF-8
with each maximal invalid subpart replaced by one U+FFFD (CPython's
behaviour, following Unicode's "substitution of maximal subparts"). -/
def utf8DecodeReplace (s : List UInt8) : List Char := utf8DecodeGo s.length s

/-- `text.rstrip("\n")`: remove every trailing newline character. -/
def pyRstripNl (s : String) : String :=
  String.mk ((s.data.reverse.dropWhile (fun c => c = '\n')).reverse)

/-- The `log` notification the relay sends for one raw line. -/
def relayNote (label : String) (line : List UInt8) : Notification :=
  ⟨"log", "[" ++ label ++ "] " ++ pyRstripNl (String.mk (utf8DecodeReplace line)), none⟩

/-- `streams._DEFAULT_LIMIT = 2 ** 16`: the stream limit
`asyncio.create_subprocess_exec` installs on the stdout/stderr
`StreamReader`s (`asyncio/subprocess.py`). -/
def streamLimit : Nat := 65536

/-- Not the line separator `b'\n'`. -/
def isNotNl (b : UInt8) : Bool := b ≠ 10

/-- `stream.readline()` of an `asyncio.StreamReader` whose remaining
contents are `s`, limit behaviour included (CPython 3.11
`asyncio/streams.py`): on success, the bytes up to and including the
first LF, or all remaining bytes at end of stream (empty at EOF);
`.error` stands for the `ValueError` `readline` raises out of
`LimitOverrunError` when the part of the line without the newline
exceeds the limit — "Separator is found, but chunk is longer than
limit" when an LF exists beyond index `streamLimit`, "Separator is not
found, and chunk exceed the limit" when the unterminated remainder is
longer than `streamLimit`. -/
def readline (s : List UInt8) : Except Unit (List UInt8 × List UInt8) :=
  if s.dropWhile isNotNl = [] then
    -- no separator in the remainder: IncompleteReadError gives the
    -- partial line at EOF, unless the buffered data overran the limit
    if s.length > streamLimit then Except.error () else Except.ok (s, [])
  else
    if (s.takeWhile isNotNl).length > streamLimit then Except.error ()
    else Except.ok (s.takeWhile isNotNl ++ [10], (s.dropWhile isNotNl).tail)

/-- Loop of `stream_process_output`, structurally recursive on a fuel
argument; each successful non-empty read consumes at least one byte, so
fuel `s.length + 1` always suffices.  The second component records how
the loop ended: `true` for the normal `break` on an empty read at end of
stream, `false` when `readline` raised `ValueError` (the exception then
propagates out of the relay coroutine). -/
def spoGo (label : String) : Nat → List UInt8 → List Notification × Bool
  | 0, _ => ([], false)
  | fuel + 1, s =>
    match readline s with
    | Except.error _ => ([], false)
    | Except.ok lr =>
      if lr.1 = [] then ([], true)
      else
        let p := spoGo label fuel lr.2
        (relayNote label lr.1 :: p.1, p.2)

/-- `stream_process_output(ws, stream, prefix)` from `src/server.py`: read
one line at a time; an empty read means end of stream and ends the loop;
otherwise decode with replacement, strip the trailing newline, and send
one `log` notification `"[<prefix>] <text>"`.  The result is the ordered
sequence of notifications the relay sends, paired with `true` when the
loop reached end of stream and returned normally, `false` when a read
raised `ValueError` (there is no try/except in the loop, so the
exception escapes the relay task after the listed notifications were
sent).  (The Python parameter is named `prefix`; that word is reserved
here.) -/
def stream_process_output (label : String) (s : List UInt8) : List Notification × Bool :=
  spoGo label (s.length + 1) s

/-- A line (as produced by `splitAfterNl`) that `readline` can deliver:
its content, the part before the newline, is within the stream limit. -/
def lineWithinLimit (line : List UInt8) : Bool :=
  (line.takeWhile isNotNl).length ≤ streamLimit

/-! ## `run_adb_intent` (src/server.py lines 81-126) -/

/-- The argument vector `cmd` built by `run_adb_intent`:
`("adb", "exec-out", shlex.join(("am", "start", "-a",
"android.intent.action.VIEW", "-d", url, "-p",
"com.google.android.youtube.tv")))`.  It is handed to
`asyncio.create_subprocess_exec(*cmd, ...)`, i.e. executed with
`shell=False`: the list elements are the verbatim argv of the outer
process. -/
def adbCmd (url : String) : List String :=
  ["adb", "exec-out",
   shlexJoin ["am", "start", "-a", "android.intent.action.VIEW", "-d", url,
              "-p", "com.google.android.youtube.tv"]]

/-- The first notification of every invocation:
`f"Command executed: {json.dumps(cmd)}"`. -/
def cmdLog (url : String) : Notification :=
  ⟨"log", "Command executed: " ++ jsonDumpStrList (adbCmd url), none⟩

/-- Outcome of `asyncio.create_subprocess_exec`: `FileNotFoundError`,
some other exception (whose `repr(e)` is the carried string), or a
started process with the full byte contents its stdout and stderr will
deliver and its eventual exit code. -/
inductive ProcStart where
  | fileNotFound
  | startFailure (detail : String)
  | started (outBytes errBytes : List UInt8) (rc : Int)
deriving DecidableEq, Repr

/-- One interleaving of two notification sequences, driven by a schedule
of scheduler choices (`true` = take from the first when it still has
elements).  The two relay tasks of an invocation run concurrently; every
run of the program realises the interleaving of some schedule. -/
def interleave : List Bool → List Notification → List Notification → List Notification
  | [], xs, ys => xs ++ ys
  | true :: sch, xs, ys =>
    match xs with
    | [] => ys
    | x :: xs2 => x :: interleave sch xs2 ys
  | false :: sch, xs, ys =>
    match ys with
    | [] => xs
    | y :: ys2 => y :: interleave sch xs ys2

/-- `run_adb_intent(ws, url)` from `src/server.py`, as the ordered list of
notifications it sends: the "Command executed" log; then, on a start
failure, exactly one `error` and an early return; on success, the two
relays' `log` lines (in an arbitrary interleaving chosen by `sched`),
fully drained (`await t_out; await t_err`) before the final `done`
notification carrying `rc = await proc.wait()`.  This function gives the
sequence for an invocation whose relays terminate normally
(`(stream_process_output …).2 = true`, i.e. no relay line overruns the
stream limit); when a relay instead raises, `await t_out` / `await t_err`
re-raises after `proc.wait()` and the `done` send is never reached —
that path is `run_adb_intent_exact` below, and the two agree exactly on
the normal-termination case. -/
def run_adb_intent (url : String) (start : ProcStart) (sched : List Bool) :
    List Notification :=
  cmdLog url ::
  match start with
  | ProcStart.fileNotFound =>
    [⟨"error", "adb was not found. Please check your PATH.", none⟩]
  | ProcStart.startFailure detail =>
    [⟨"error", "Failed to start process: " ++ detail, none⟩]
  | ProcStart.started outBytes errBytes rc =>
    interleave sched (stream_process_output "stdout" outBytes).1
      (stream_process_output "stderr" errBytes).1
    ++ [⟨"done", "Exit code: " ++ toString rc, some rc⟩]

/-- The exact outcome of `run_adb_intent` for a started process, limit
path included: the notifications delivered, and `true` when both relays
drained to end of stream so the `done` notification was sent, `false`
when a relay raised `ValueError` — then `await t_out` / `await t_err`
re-raises it inside `run_adb_intent` after `proc.wait()` returned, the
`done` send on line 126 is never reached, and the exception propagates
on through `websocket_handler` (which has no try/except around the
dispatch), ending the session. -/
def run_adb_intent_exact (url : String) (outBytes errBytes : List UInt8) (rc : Int)
    (sched : List Bool) : List Notification × Bool :=
  let ro := stream_process_output "stdout" outBytes
  let re2 := stream_process_output "stderr" errBytes
  if ro.2 && re2.2 then
    (cmdLog url ::
      (interleave sched ro.1 re2.1 ++ [⟨"done", "Exit code: " ++ toString rc, some rc⟩]),
     true)
  else
    (cmdLog url :: interleave sched ro.1 re2.1, false)

/-! ## `websocket_handler` (src/server.py lines 129-161) -/

/-- Python `str.strip()` whitespace (Unicode whitespace, as
`str.isspace`). -/
def pyIsSpace (c : Char) : Bool :=
  let n := c.toNat
  (9 ≤ n && n ≤ 13) || (28 ≤ n && n ≤ 32) || n = 133 || n = 160 ||
  n = 5760 || (8192 ≤ n && n ≤ 8202) || n = 8232 || n = 8233 ||
  n = 8239 || n = 8287 || n = 12288

/-- Python `s.strip()` with no argument. -/
def pyStrip (s : String) : String :=
  String.mk (((s.data.dropWhile pyIsSpace).reverse.dropWhile pyIsSpace).reverse)

/-- `(x or "")` for `x = data.get("url")`: `None` (the field absent or
JSON `null`) and the empty string are falsy and give `""`. -/
def pyOrEmpty : Option String → String
  | none => ""
  | some s => s

/-- Python `repr` of `data.get("type")` as interpolated into the
`"Unknown type: ..."` message, for the values this model ranges over:
`None` or a string.  `repr` surrounds the text with single quotes unless
the string contains a single quote and no double quote, in which case it
uses double quotes; the quote character in use and the backslash are
escaped.  (`repr`'s further escapes concern control and non-printable
characters only and are not modelled; no theorem below inspects this
message.) -/
def pyReprOptStr : Option String → String
  | none => "None"
  | some s =>
    let q := if s.data.contains squote && !(s.data.contains '"') then '"' else squote
    String.mk ([q] ++
      s.data.flatMap (fun c =>
        if c = q then ['\\', q]
        else if c = '\\' then ['\\', '\\'] else [c]) ++ [q])

/-- A decoded inbound JSON object, restricted to the two fields the
handler reads: `data.get("type")` and `data.get("url")` (absent or
JSON-null ↦ `none`). -/
structure Msg where
  typ : Option String
  url : Option String
deriving DecidableEq, Repr

/-- One inbound websocket frame: a TEXT frame (with `none` standing for
`json.loads` raising `JSONDecodeError`), some other non-error frame
(skipped by the `if/elif` chain), or an ERROR frame (which breaks the
loop). -/
inductive Inbound where
  | text (decoded : Option Msg)
  | nonText
  | errFrame
deriving DecidableEq, Repr

/-- The environment one `open` invocation runs against: the process-start
outcome and the relay interleaving the scheduler happens to choose. -/
structure ProcEnv where
  start : ProcStart
  sched : List Bool

/-- The error notification for undecodable JSON. -/
def jsonFormatErr : Notification :=
  ⟨"error",
   "Please send data in JSON format. Example: \x7b\"type\":\"open\",\"url\":\"...\"\x7d",
   none⟩

/-- The error notification for a URL failing `is_valid_youtube_url`. -/
def invalidUrlErr : Notification :=
  ⟨"error", "The URL is invalid as a YouTube URL (check allowed domains/formats).", none⟩

/-- The `async for msg in ws:` loop of `websocket_handler`, as the ordered
list of notifications it sends.  The loop handles one frame at a time,
awaiting each `open` invocation to completion before reading the next
frame; `env k` supplies the environment of the `k`-th started invocation.
An ERROR frame breaks the loop; a TEXT frame is decoded, dispatched on
`data.get("type")`, and for `"open"` the trimmed URL is echoed, gated by
`is_valid_youtube_url`, and on success `run_adb_intent` runs to
completion. -/
def session_loop (env : Nat → ProcEnv) : List Inbound → Nat → List Notification
  | [], _ => []
  | Inbound.errFrame :: _, _ => []
  | Inbound.nonText :: rest, k => session_loop env rest k
  | Inbound.text none :: rest, k => jsonFormatErr :: session_loop env rest k
  | Inbound.text (some m) :: rest, k =>
    if m.typ = some "open" then
      let url := pyStrip (pyOrEmpty m.url)
      ⟨"log", "Received URL: " ++ url, none⟩ ::
      (if is_valid_youtube_url url then
        run_adb_intent url (env k).start (env k).sched ++ session_loop env rest (k + 1)
      else
        invalidUrlErr :: session_loop env rest k)
    else if m.typ = some "ping" then
      ⟨"pong", "pong", none⟩ :: session_loop env rest k
    else
      ⟨"error", "Unknown type: " ++ pyReprOptStr m.typ, none⟩ :: session_loop env rest k

/-- `websocket_handler`: the greeting log sent right after the websocket
is prepared, followed by the read loop. -/
def websocket_handler (env : Nat → ProcEnv) (frames : List Inbound) : List Notification :=
  ⟨"log", "WebSocket connected. Please send a YouTube URL.", none⟩ ::
  session_loop env frames 0

/-! ## Claim-side predicates for the URL validator -/

/-- The `hostname` attribute of a Python `SplitResult`, from the netloc:
the part after the last `@`, then — brackets absent — the part before the
first `:`, lowercased (`_hostinfo` in `urllib.parse`).  This is the
"host" of a URI in the RFC 3986 sense, with userinfo and port
stripped. -/
def pyHostnameOf (netloc : String) : String :=
  let hostinfo := afterLast '@' netloc.data
  let h :=
    if hostinfo.contains '[' then
      ((hostinfo.dropWhile (fun c => c ≠ '[')).tail).takeWhile (fun c => c ≠ ']')
    else hostinfo.takeWhile (fun c => c ≠ ':')
  String.mk (h.map Char.toLower)

/-- The URL rule exactly as claim C1 states it: the string parses, the
scheme is `http` or `https`, the HOST (compared case-insensitively, i.e.
the hostname component, without userinfo or port) is in the allow-list,
and the path satisfies the host-specific rule. -/
def validate_claim (url : String) : Bool :=
  match pyUrlparse url with
  | Except.error _ => false
  | Except.ok u =>
    let host := pyHostnameOf u.netloc
    (u.scheme = "http" || u.scheme = "https") &&
    allowedHosts.contains host &&
    (if host = "youtu.be" || host = "www.youtu.be" then
       u.path ≠ "" && u.path ≠ "/"
     else startsWithAny u.path ["/watch", "/shorts", "/live", "/embed"])

/-- The URL rule as amended: as claim C1, but with the whole lowercased
NETLOC (the authority component, userinfo and port included) required to
be one of the five allow-listed strings, which is what the code
compares. -/
def validate_amended (url : String) : Bool :=
  match pyUrlparse url with
  | Except.error _ => false
  | Except.ok u =>
    let host := pyLower u.netloc
    (u.scheme = "http" || u.scheme = "https") &&
    allowedHosts.contains host &&
    (if host = "youtu.be" || host = "www.youtu.be" then
       u.path ≠ "" && u.path ≠ "/"
     else startsWithAny u.path ["/watch", "/shorts", "/live", "/embed"])

/-! ## Helper lemmas about the relay and the interleaving -/

/-- Claim-side decomposition of a byte stream into its lines: split after
every LF; a final unterminated chunk is a line of its own; an empty
stream has no lines. -/
def splitAfterNl : List UInt8 → List (List UInt8)
  | [] => []
  | b :: rest =>
    if b = 10 then [b] :: splitAfterNl rest
    else
      match splitAfterNl rest with
      | [] => [[b]]
      | l :: ls => (b :: l) :: ls

/-! ## Counting and scenario helpers -/

/-- The number of `pong` notifications in an outbound sequence. -/
def countPongs (l : List Notification) : Nat :=
  l.countP (fun n => n.typ == "pong")

/-- The number of inbound frames that decode to a `ping` request. -/
def countPings (frames : List Inbound) : Nat :=
  frames.countP (fun f =>
    match f with
    | Inbound.text (some m) => m.typ == some "ping"
    | _ => false)

/-- An inbound `{"type":"ping"}` frame. -/
def pingFrame : Inbound := Inbound.text (some ⟨some "ping", none⟩)

/-- An inbound `{"type":"open","url":...}` frame. -/
def openFrame (u : Option String) : Inbound := Inbound.text (some ⟨some "open", u⟩)

/-- A constant environment supplying the same process outcome (and the
empty interleaving schedule) to every invocation. -/
def constEnv (p : ProcStart) : Nat → ProcEnv := fun _ => ⟨p, []⟩

/-! ## Helper lemmas -/

theorem isNotNl_true {b : UInt8} (h : b ≠ 10) : isNotNl b = true := by
  simp [isNotNl, h]

theorem takeWhile_dropWhile_length (p : UInt8 → Bool) (s : List UInt8) :
    (s.takeWhile p).length + (s.dropWhile p).length = s.length := by
  have h := congrArg List.length (List.takeWhile_append_dropWhile (p := p) (l := s))
  rw [List.length_append] at h
  exact h

/-- First-line decomposition of `splitAfterNl` in terms of the content
before the first LF. -/
theorem splitAfterNl_eq_cons (s : List UInt8) (h : s ≠ []) :
    splitAfterNl s =
      (s.takeWhile isNotNl ++ (if s.dropWhile isNotNl = [] then [] else [10])) ::
      splitAfterNl ((s.dropWhile isNotNl).tail) := by
  induction s with
  | nil => exact absurd rfl h
  | cons b rest ih =>
    simp only [splitAfterNl]
    by_cases hb : b = 10
    · subst hb
      rw [List.takeWhile_cons_of_neg (by simp [isNotNl]),
          List.dropWhile_cons_of_neg (by simp [isNotNl])]
      simp
    · rw [List.takeWhile_cons_of_pos (isNotNl_true hb),
          List.dropWhile_cons_of_pos (isNotNl_true hb)]
      simp only [if_neg hb]
      cases hr : rest with
      | nil =>
        subst hr
        simp [splitAfterNl]
      | cons c cs =>
        subst hr
        rw [ih (by simp)]
        rfl

/-- A nonempty stream without any LF is a single line. -/
theorem splitAfterNl_no_sep (s : List UInt8) (h10 : ∀ x ∈ s, x ≠ 10) (h : s ≠ []) :
    splitAfterNl s = [s] := by
  have hd : s.dropWhile isNotNl = [] :=
    List.dropWhile_eq_nil_iff.mpr (fun x hx => isNotNl_true (h10 x hx))
  have ht : s.takeWhile isNotNl = s :=
    List.takeWhile_eq_self_iff.mpr (fun x hx => isNotNl_true (h10 x hx))
  rw [splitAfterNl_eq_cons s h, hd, ht]
  simp [splitAfterNl]

/-- `readline` raises on an unterminated remainder longer than the
limit. -/
theorem readline_no_sep_overrun (s : List UInt8) (h10 : ∀ x ∈ s, x ≠ 10)
    (hlen : s.length > streamLimit) : readline s = Except.error () := by
  have hd : s.dropWhile isNotNl = [] :=
    List.dropWhile_eq_nil_iff.mpr (fun x hx => isNotNl_true (h10 x hx))
  unfold readline
  rw [if_pos hd, if_pos hlen]

/-- The one 65537-byte line with no newline that overruns the limit. -/
theorem readline_bigline :
    readline (List.replicate 65537 (97 : UInt8)) = Except.error () := by
  apply readline_no_sep_overrun
  · intro x hx
    have hx2 := List.eq_of_mem_replicate hx
    subst hx2
    decide
  · rw [List.length_replicate]
    decide

theorem spoGo_error (label : String) (fuel : Nat) (s : List UInt8)
    (h : readline s = Except.error ()) : spoGo label (fuel + 1) s = ([], false) := by
  simp [spoGo, h]

/-- A relay dies without emitting anything when its first read
overruns. -/
theorem relay_error (label : String) (s : List UInt8)
    (h : readline s = Except.error ()) : stream_process_output label s = ([], false) :=
  spoGo_error label s.length s h

/-- Every notification the relay sends is a `log`. -/
theorem spoGo_fst_log (label : String) :
    ∀ (fuel : Nat) (s : List UInt8) (n : Notification),
      n ∈ (spoGo label fuel s).1 → n.typ = "log" := by
  intro fuel
  induction fuel with
  | zero => intro s n hn; simp [spoGo] at hn
  | succ fuel ih =>
    intro s n hn
    simp only [spoGo] at hn
    cases hr : readline s with
    | error e => rw [hr] at hn; simp at hn
    | ok lr =>
      rw [hr] at hn
      by_cases hl : lr.1 = []
      · simp [hl] at hn
      · simp only [if_neg hl, List.mem_cons] at hn
        rcases hn with h | h
        · subst h; rfl
        · exact ih lr.2 n h

/-- Every notification the relay sends is a `log` (wrapper). -/
theorem relay_fst_log (label : String) (s : List UInt8) (n : Notification)
    (h : n ∈ (stream_process_output label s).1) : n.typ = "log" :=
  spoGo_fst_log label (s.length + 1) s n h

/-- Content of a line with its newline appended. -/
theorem takeWhile_append_ten (L : List UInt8) (hL : ∀ x ∈ L, x ≠ 10) :
    ((L ++ [10]).takeWhile isNotNl) = L := by
  induction L with
  | nil =>
    rw [List.nil_append, List.takeWhile_cons_of_neg (by simp [isNotNl])]
  | cons a as ih =>
    rw [List.cons_append,
        List.takeWhile_cons_of_pos (isNotNl_true (hL a (List.mem_cons_self _ _))),
        ih (fun x hx => hL x (List.mem_cons_of_mem _ hx))]

/-- The relay on a stream all of whose lines are within the limit: one
`log` per line, normal termination (fueled loop). -/
theorem spoGo_within (label : String) :
    ∀ (fuel : Nat) (s : List UInt8), s.length < fuel →
      (splitAfterNl s).all lineWithinLimit = true →
      spoGo label fuel s = ((splitAfterNl s).map (relayNote label), true) := by
  intro fuel
  induction fuel with
  | zero => intro s hs _; omega
  | succ fuel ih =>
    intro s hs hall
    by_cases hnil : s = []
    · subst hnil
      have hread : readline [] = Except.ok ([], []) := by
        unfold readline
        simp [streamLimit]
      simp [spoGo, hread, splitAfterNl]
    · have hsplit := splitAfterNl_eq_cons s hnil
      have hlen := takeWhile_dropWhile_length isNotNl s
      have htw : ∀ x ∈ s.takeWhile isNotNl, x ≠ 10 := by
        intro x hx
        have h2 := List.mem_takeWhile_imp hx
        simpa [isNotNl] using h2
      rw [hsplit, List.all_cons, Bool.and_eq_true] at hall
      obtain ⟨hfirst, htail⟩ := hall
      have hLlim : (s.takeWhile isNotNl).length ≤ streamLimit := by
        by_cases hd : s.dropWhile isNotNl = []
        · rw [hd, if_pos rfl, List.append_nil] at hfirst
          unfold lineWithinLimit at hfirst
          rw [List.takeWhile_eq_self_iff.mpr (fun x hx => isNotNl_true (htw x hx))] at hfirst
          simpa using hfirst
        · rw [if_neg hd] at hfirst
          unfold lineWithinLimit at hfirst
          rw [takeWhile_append_ten _ htw] at hfirst
          simpa using hfirst
      by_cases hd : s.dropWhile isNotNl = []
      · -- no separator: the whole remainder is the one final line
        have hts : s.takeWhile isNotNl = s := by
          have h2 := List.takeWhile_append_dropWhile (p := isNotNl) (l := s)
          rw [hd, List.append_nil] at h2
          exact h2
        have hsl : s.length ≤ streamLimit := by
          rw [← hts]
          exact hLlim
        have hread : readline s = Except.ok (s, []) := by
          unfold readline
          rw [if_pos hd, if_neg (by omega)]
        have hbase : spoGo label fuel [] = ([], true) := by
          cases fuel with
          | zero =>
            exfalso
            have h3 : 0 < s.length := List.length_pos.mpr hnil
            omega
          | succ f2 =>
            have hre : readline [] = Except.ok ([], []) := by
              unfold readline
              simp [streamLimit]
            simp [spoGo, hre]
        rw [hsplit, hd]
        simp only [spoGo, hread, if_neg hnil, hbase, List.tail_nil]
        simp [splitAfterNl, hts]
      · -- separator present: one full line, then the rest of the stream
        have hread : readline s =
            Except.ok (s.takeWhile isNotNl ++ [10], (s.dropWhile isNotNl).tail) := by
          unfold readline
          rw [if_neg hd, if_neg (by omega)]
        have hne2 : s.takeWhile isNotNl ++ [10] ≠ [] := by simp
        have hdp : 0 < (s.dropWhile isNotNl).length := List.length_pos.mpr hd
        have hrec : ((s.dropWhile isNotNl).tail).length < fuel := by
          have h3 := List.length_tail (s.dropWhile isNotNl)
          omega
        rw [hsplit, if_neg hd]
        simp only [spoGo, hread, if_neg hne2]
        rw [ih _ hrec htail]
        simp

/-- The relay on a stream all of whose lines are within the limit: one
`log` per line, normal termination. -/
theorem relay_within (label : String) (s : List UInt8)
    (h : (splitAfterNl s).all lineWithinLimit = true) :
    stream_process_output label s = ((splitAfterNl s).map (relayNote label), true) :=
  spoGo_within label (s.length + 1) s (Nat.lt_succ_self _) h

theorem interleave_mem {a : Notification} :
    ∀ (sch : List Bool) (xs ys : List Notification),
    a ∈ interleave sch xs ys → a ∈ xs ∨ a ∈ ys := by
  intro sch
  induction sch with
  | nil =>
    intro xs ys h
    exact List.mem_append.mp (by simpa [interleave] using h)
  | cons b sch ih =>
    intro xs ys h
    cases b
    · cases ys with
      | nil => exact Or.inl (by simpa [interleave] using h)
      | cons y ys2 =>
        simp only [interleave] at h
        rcases List.mem_cons.mp h with h1 | h1
        · exact Or.inr (by simp [h1])
        · rcases ih xs ys2 h1 with h2 | h2
          · exact Or.inl h2
          · exact Or.inr (List.mem_cons_of_mem _ h2)
    · cases xs with
      | nil => exact Or.inr (by simpa [interleave] using h)
      | cons x xs2 =>
        simp only [interleave] at h
        rcases List.mem_cons.mp h with h1 | h1
        · exact Or.inl (by simp [h1])
        · rcases ih xs2 ys h1 with h2 | h2
          · exact Or.inl (List.mem_cons_of_mem _ h2)
          · exact Or.inr h2

/-- Everything a started invocation emits before `done` is a `log`. -/
theorem run_started_dropLast_log (url : String) (ob eb : List UInt8) (rc : Int)
    (sched : List Bool) :
    ∀ x ∈ (run_adb_intent url (ProcStart.started ob eb rc) sched).dropLast,
      x.typ = "log" := by
  intro x hx
  have hshape :
      run_adb_intent url (ProcStart.started ob eb rc) sched =
        (cmdLog url ::
          interleave sched (stream_process_output "stdout" ob).1
            (stream_process_output "stderr" eb).1) ++
        [⟨"done", "Exit code: " ++ toString rc, some rc⟩] := by
    simp [run_adb_intent]
  rw [hshape, List.dropLast_concat] at hx
  rcases List.mem_cons.mp hx with h1 | h1
  · rw [h1]; rfl
  · rcases interleave_mem _ _ _ h1 with h2 | h2
    · exact relay_fst_log "stdout" ob x h2
    · exact relay_fst_log "stderr" eb x h2

/-- The last notification of a started invocation is the `done`. -/
theorem run_started_getLast (url : String) (ob eb : List UInt8) (rc : Int)
    (sched : List Bool) :
    (run_adb_intent url (ProcStart.started ob eb rc) sched).getLast? =
      some ⟨"done", "Exit code: " ++ toString rc, some rc⟩ := by
  have hshape :
      run_adb_intent url (ProcStart.started ob eb rc) sched =
        (cmdLog url ::
          interleave sched (stream_process_output "stdout" ob).1
            (stream_process_output "stderr" eb).1) ++
        [⟨"done", "Exit code: " ++ toString rc, some rc⟩] := by
    simp [run_adb_intent]
  rw [hshape, List.getLast?_concat]

/-- No notification of an invocation is a `pong`. -/
theorem run_no_pong (url : String) (st : ProcStart) (sched : List Bool) :
    ∀ n ∈ run_adb_intent url st sched, n.typ ≠ "pong" := by
  intro n hn
  cases st with
  | fileNotFound =>
    simp only [run_adb_intent] at hn
    rcases List.mem_cons.mp hn with h | h
    · subst h; simp [cmdLog]
    · simp only [List.mem_singleton] at h
      subst h; simp
  | startFailure d =>
    simp only [run_adb_intent] at hn
    rcases List.mem_cons.mp hn with h | h
    · subst h; simp [cmdLog]
    · simp only [List.mem_singleton] at h
      subst h; simp
  | started ob eb rc =>
    simp only [run_adb_intent] at hn
    rcases List.mem_cons.mp hn with h | h
    · subst h; simp [cmdLog]
    · rcases List.mem_append.mp h with h | h
      · rcases interleave_mem _ _ _ h with h2 | h2
        · have hlog := relay_fst_log "stdout" ob n h2
          simp [hlog]
        · have hlog := relay_fst_log "stderr" eb n h2
          simp [hlog]
      · simp only [List.mem_singleton] at h
        subst h; simp

/-- Every `pong`-typed notification a session emits is exactly the pong
reply. -/
theorem session_pong_shape (env : Nat → ProcEnv) :
    ∀ (frames : List Inbound) (k : Nat) (n : Notification),
      n ∈ session_loop env frames k → n.typ = "pong" → n = ⟨"pong", "pong", none⟩ := by
  intro frames
  induction frames with
  | nil => intro k n hn _; simp [session_loop] at hn
  | cons f rest ih =>
    intro k n hn hp
    cases f with
    | errFrame => simp [session_loop] at hn
    | nonText => exact ih k n (by simpa [session_loop] using hn) hp
    | text od =>
      cases od with
      | none =>
        simp only [session_loop, List.mem_cons] at hn
        rcases hn with h | h
        · subst h; simp [jsonFormatErr] at hp
        · exact ih k n h hp
      | some m =>
        by_cases ho : m.typ = some "open"
        · by_cases hv : is_valid_youtube_url (pyStrip (pyOrEmpty m.url)) = true
          · simp [session_loop, ho, hv] at hn
            rcases hn with h | h | h
            · subst h; simp at hp
            · exact absurd hp (run_no_pong _ _ _ n h)
            · exact ih (k + 1) n h hp
          · have hv' : is_valid_youtube_url (pyStrip (pyOrEmpty m.url)) = false :=
              Bool.eq_false_iff.mpr hv
            simp [session_loop, ho, hv'] at hn
            rcases hn with h | h | h
            · subst h; simp at hp
            · subst h; simp [invalidUrlErr] at hp
            · exact ih k n h hp
        · by_cases hping : m.typ = some "ping"
          · simp [session_loop, ho, hping] at hn
            rcases hn with h | h
            · exact h
            · exact ih k n h hp
          · simp [session_loop, ho, hping] at hn
            rcases hn with h | h
            · subst h; simp at hp
            · exact ih k n h hp

/-- One `pong` per decoded `ping` frame, over the whole read loop. -/
theorem session_pong_count (env : Nat → ProcEnv) :
    ∀ (frames : List Inbound) (k : Nat), Inbound.errFrame ∉ frames →
      countPongs (session_loop env frames k) = countPings frames := by
  intro frames
  induction frames with
  | nil => intro k _; simp [session_loop, countPongs, countPings]
  | cons f rest ih =>
    intro k hmem
    have hrest : Inbound.errFrame ∉ rest := fun h => hmem (List.mem_cons_of_mem _ h)
    cases f with
    | errFrame => exact absurd (List.mem_cons_self _ _) hmem
    | nonText =>
      simpa [session_loop, countPings, List.countP_cons] using ih k hrest
    | text od =>
      cases od with
      | none =>
        simpa [session_loop, countPongs, countPings, List.countP_cons, jsonFormatErr]
          using ih k hrest
      | some m =>
        by_cases ho : m.typ = some "open"
        · by_cases hv : is_valid_youtube_url (pyStrip (pyOrEmpty m.url)) = true
          · have hrun :
                (run_adb_intent (pyStrip (pyOrEmpty m.url)) (env k).start
                  (env k).sched).countP (fun n => n.typ == "pong") = 0 := by
              rw [List.countP_eq_zero]
              intro n hn
              have := run_no_pong _ _ _ n hn
              simpa using this
            have h2 := ih (k + 1) hrest
            simp only [countPongs, countPings] at h2
            simp [session_loop, ho, hv, countPongs, countPings, List.countP_cons,
              List.countP_append, hrun, h2]
          · have hv' : is_valid_youtube_url (pyStrip (pyOrEmpty m.url)) = false :=
              Bool.eq_false_iff.mpr hv
            simpa [session_loop, ho, hv', countPongs, countPings, List.countP_cons,
              invalidUrlErr] using ih k hrest
        · by_cases hping : m.typ = some "ping"
          · simpa [session_loop, ho, hping, countPongs, countPings, List.countP_cons]
              using ih k hrest
          · simpa [session_loop, ho, hping, countPongs, countPings, List.countP_cons]
              using ih k hrest

/-- A string all of whose characters are Python whitespace strips to the
empty string. -/
theorem pyStrip_of_all_space (s : String) (h : s.data.all pyIsSpace = true) :
    pyStrip s = "" := by
  have h' : ∀ c ∈ s.data, pyIsSpace c := by simpa [List.all_eq_true] using h
  have h1 : s.data.dropWhile pyIsSpace = [] := List.dropWhile_eq_nil_iff.mpr h'
  simp [pyStrip, h1]

/-! ## The claims -/

/-- C1 (counterexample): the claim ties acceptance to the URL's HOST, but
the code compares the whole netloc; `http://youtube.com:8080/watch` has
host `youtube.com` (allow-listed), scheme `http` and path `/watch`, so
the claimed rule accepts it, yet the validator rejects it because the
netloc `youtube.com:8080` is not in the allow-list. -/
theorem C1_counterexample :
    validate_claim "http://youtube.com:8080/watch" = true ∧
    is_valid_youtube_url "http://youtube.com:8080/watch" = false := by
  decide

/-- C1 (amended): for every input string, `is_valid_youtube_url` returns
true iff the string parses, the scheme is exactly `http` or `https`, the
lowercased NETLOC (the whole authority: userinfo and port included) is
one of `youtube.com`, `www.youtube.com`, `m.youtube.com`, `youtu.be`,
`www.youtu.be`, and the path satisfies the host-specific rule: for
`youtu.be`/`www.youtu.be` non-empty and not `/`; for the other three a
prefix among `/watch`, `/shorts`, `/live`, `/embed`. -/
theorem C1_validator_amended (url : String) :
    is_valid_youtube_url url = validate_amended url := by
  unfold is_valid_youtube_url validate_amended
  cases hp : pyUrlparse url with
  | error e => rfl
  | ok u =>
    by_cases hc : pyLower u.netloc ∈ allowedHosts
    · simp only [allowedHosts, List.mem_cons, List.not_mem_nil, or_false] at hc
      rcases hc with h | h | h | h | h <;>
        by_cases h1 : u.scheme = "http" <;> by_cases h2 : u.scheme = "https" <;>
        simp_all [allowedHosts, startsWithAny]
    · have hct : allowedHosts.contains (pyLower u.netloc) = false := by
        rcases hb : allowedHosts.contains (pyLower u.netloc) with _ | _
        · rfl
        · exact absurd (List.elem_iff.mp hb) hc
      simp [hct, hc]

/-- C2: for every URL, the outer argument vector is exactly
`["adb", "exec-out", <joined am-start string>]` — three elements whatever
the URL contains, so the URL cannot add arguments to the outer argv —
and inside the joined string the URL occurs as the single shell-quoted
token between `-d` and `-p com.google.android.youtube.tv`. -/
theorem C2_argv_fixed_shape (url : String) :
    adbCmd url =
      ["adb", "exec-out",
       shlexJoin ["am", "start", "-a", "android.intent.action.VIEW", "-d", url,
                  "-p", "com.google.android.youtube.tv"]] ∧
    (adbCmd url).length = 3 ∧
    (shlexJoin ["am", "start", "-a", "android.intent.action.VIEW", "-d", url,
                "-p", "com.google.android.youtube.tv"]).data =
      ("am start -a android.intent.action.VIEW -d ").data ++
        (shlexQuote url).data ++ (" -p com.google.android.youtube.tv").data := by
  refine ⟨rfl, rfl, ?_⟩
  have h1 : shlexQuote "am" = "am" := by decide
  have h2 : shlexQuote "start" = "start" := by decide
  have h3 : shlexQuote "-a" = "-a" := by decide
  have h4 : shlexQuote "android.intent.action.VIEW" = "android.intent.action.VIEW" := by decide
  have h5 : shlexQuote "-d" = "-d" := by decide
  have h6 : shlexQuote "-p" = "-p" := by decide
  have h7 : shlexQuote "com.google.android.youtube.tv" = "com.google.android.youtube.tv" := by
    decide
  simp [shlexJoin, h1, h2, h3, h4, h5, h6, h7, String.data_append, List.append_assoc]

/-- C3 (counterexample): an invocation whose process starts and exits
(exit code 0) but whose stdout is one 65537-byte line with no newline:
`readline` raises `ValueError` (limit overrun), the stdout relay dies,
`await t_out` re-raises after `proc.wait()`, and the `done` notification
is never sent — the invocation delivers only the command-echo log, so
`done` is not its last notification. -/
theorem C3_counterexample :
    (run_adb_intent_exact "https://youtu.be/x" (List.replicate 65537 97) [] 0 []).2 = false ∧
    (run_adb_intent_exact "https://youtu.be/x" (List.replicate 65537 97) [] 0 []).1 =
      [cmdLog "https://youtu.be/x"] := by
  have h1 : stream_process_output "stdout" (List.replicate 65537 97) = ([], false) :=
    relay_error _ _ readline_bigline
  have h2 : stream_process_output "stderr" [] = ([], true) := by decide
  constructor
  · simp only [run_adb_intent_exact, h1, h2]
    rfl
  · simp only [run_adb_intent_exact, h1, h2]
    rfl

/-- C3 (amended): for every started invocation all of whose output lines
are within the 64 KiB stream limit, both relays drain their streams to
the end, the invocation completes normally, the `done` notification
(carrying the exit code in its text and its `returncode` field) is its
last notification, everything before it is a `log` — for every
interleaving the scheduler may choose — and the delivered sequence is
exactly the one `run_adb_intent` describes. -/
theorem C3_done_after_drain (url : String) (ob eb : List UInt8) (rc : Int) (sched : List Bool)
    (ho : (splitAfterNl ob).all lineWithinLimit = true)
    (he : (splitAfterNl eb).all lineWithinLimit = true) :
    (run_adb_intent_exact url ob eb rc sched).2 = true ∧
    (run_adb_intent_exact url ob eb rc sched).1 =
      run_adb_intent url (ProcStart.started ob eb rc) sched ∧
    (run_adb_intent_exact url ob eb rc sched).1.getLast? =
      some ⟨"done", "Exit code: " ++ toString rc, some rc⟩ ∧
    ((run_adb_intent_exact url ob eb rc sched).1.dropLast.all
      (fun n => n.typ == "log")) = true := by
  have h1 := relay_within "stdout" ob ho
  have h2 := relay_within "stderr" eb he
  have hexact : run_adb_intent_exact url ob eb rc sched =
      (run_adb_intent url (ProcStart.started ob eb rc) sched, true) := by
    simp [run_adb_intent_exact, run_adb_intent, h1, h2]
  refine ⟨by rw [hexact], by rw [hexact], ?_, ?_⟩
  · rw [hexact]
    exact run_started_getLast url ob eb rc sched
  · rw [hexact]
    rw [List.all_eq_true]
    intro n hn
    have h3 := run_started_dropLast_log url ob eb rc sched n hn
    simp [h3]

/-- C3 witness: a started invocation with a short terminated stdout line
and one invalid byte on stderr, schedule taking stdout first. -/
theorem C3_done_after_drain_witness :
    ((splitAfterNl [104, 105, 10]).all lineWithinLimit = true ∧
     (splitAfterNl [255]).all lineWithinLimit = true) ∧
    ((run_adb_intent_exact "https://youtu.be/x" [104, 105, 10] [255] 7 [true]).2 = true ∧
     (run_adb_intent_exact "https://youtu.be/x" [104, 105, 10] [255] 7 [true]).1 =
       run_adb_intent "https://youtu.be/x" (ProcStart.started [104, 105, 10] [255] 7) [true] ∧
     (run_adb_intent_exact "https://youtu.be/x" [104, 105, 10] [255] 7 [true]).1.getLast? =
       some ⟨"done", "Exit code: " ++ toString (7 : Int), some 7⟩ ∧
     ((run_adb_intent_exact "https://youtu.be/x" [104, 105, 10] [255] 7 [true]).1.dropLast.all
       (fun n => n.typ == "log")) = true) :=
  ⟨⟨by decide, by decide⟩,
   C3_done_after_drain "https://youtu.be/x" [104, 105, 10] [255] 7 [true]
     (by decide) (by decide)⟩

/-- C4: a `FileNotFoundError` on process start yields exactly the
command-echo log and one binary-not-found error — no relays, no `done`,
no exit status; any other start failure yields exactly the command-echo
log and one error carrying the failure detail. -/
theorem C4_start_failure_single_error (url detail : String) (sched : List Bool) :
    run_adb_intent url ProcStart.fileNotFound sched =
      [cmdLog url, ⟨"error", "adb was not found. Please check your PATH.", none⟩] ∧
    run_adb_intent url (ProcStart.startFailure detail) sched =
      [cmdLog url, ⟨"error", "Failed to start process: " ++ detail, none⟩] :=
  ⟨rfl, rfl⟩

/-- C5: an undecodable TEXT frame yields exactly one error notification
(the JSON format hint), consumes no invocation environment, and the
session keeps processing the following frames — in particular a ping
right after is still answered. -/
theorem C5_malformed_json_single_error (env : Nat → ProcEnv) (rest : List Inbound) (k : Nat) :
    session_loop env (Inbound.text none :: rest) k =
      jsonFormatErr :: session_loop env rest k ∧
    session_loop env (Inbound.text none :: pingFrame :: rest) k =
      jsonFormatErr :: ⟨"pong", "pong", none⟩ :: session_loop env rest k := by
  constructor
  · rfl
  · simp [session_loop, pingFrame]

/-- C6: requests are dispatched strictly sequentially: a ping queued
behind a running `open` invocation is answered only after the
invocation's complete output — whose last element is the `done`
notification — has been sent. -/
theorem C6_sequential_dispatch (env : Nat → ProcEnv) (raw : String) (rest : List Inbound)
    (k : Nat) (ob eb : List UInt8) (rc : Int)
    (hv : is_valid_youtube_url (pyStrip raw) = true)
    (hst : (env k).start = ProcStart.started ob eb rc) :
    session_loop env (openFrame (some raw) :: pingFrame :: rest) k =
      ⟨"log", "Received URL: " ++ pyStrip raw, none⟩ ::
        (run_adb_intent (pyStrip raw) (env k).start (env k).sched ++
          (⟨"pong", "pong", none⟩ :: session_loop env rest (k + 1))) ∧
    (run_adb_intent (pyStrip raw) (env k).start (env k).sched).getLast? =
      some ⟨"done", "Exit code: " ++ toString rc, some rc⟩ := by
  constructor
  · simp [session_loop, openFrame, pingFrame, pyOrEmpty, hv]
  · rw [hst]
    exact run_started_getLast _ _ _ _ _

/-- C7 (counterexample): a stream that is one 65537-byte line with no
newline has exactly one line in the claim's sense, yet the relay emits
no `log` notification for it and does not terminate normally:
`readline` raises `ValueError` out of the 64 KiB limit and the
exception escapes the loop, which has no try/except. -/
theorem C7_counterexample :
    stream_process_output "stdout" (List.replicate 65537 97) = ([], false) ∧
    splitAfterNl (List.replicate 65537 97) = [List.replicate 65537 97] := by
  constructor
  · exact relay_error _ _ readline_bigline
  · apply splitAfterNl_no_sep
    · intro x hx
      have hx2 := List.eq_of_mem_replicate hx
      subst hx2
      decide
    · intro hcontra
      have h3 := congrArg List.length hcontra
      rw [List.length_replicate] at h3
      simp at h3

/-- C7 (amended): for every byte stream all of whose lines are within
the 64 KiB stream limit, the relay emits exactly one `log` notification
per line, whose message is `"[<label>] <line>"` with the trailing
newline removed — non-UTF-8 bytes replaced by U+FFFD rather than
rejected (shown on a lone `0xFF` and a truncated sequence) — and it
terminates normally at end of stream. -/
theorem C7_relay_within_limit (label : String) (s : List UInt8)
    (h : (splitAfterNl s).all lineWithinLimit = true) :
    stream_process_output label s = ((splitAfterNl s).map (relayNote label), true) ∧
    utf8DecodeReplace [0xc3, 0x28] = [replChar, '('] ∧
    utf8DecodeReplace [0xff] = [replChar] :=
  ⟨relay_within label s h, by decide, by decide⟩

/-- C7 witness: a terminated line, then an unterminated line holding an
invalid byte. -/
theorem C7_relay_within_limit_witness :
    (splitAfterNl [104, 10, 255]).all lineWithinLimit = true ∧
    (stream_process_output "stdout" [104, 10, 255] =
       ((splitAfterNl [104, 10, 255]).map (relayNote "stdout"), true) ∧
     utf8DecodeReplace [0xc3, 0x28] = [replChar, '('] ∧
     utf8DecodeReplace [0xff] = [replChar]) :=
  ⟨by decide, C7_relay_within_limit "stdout" [104, 10, 255] (by decide)⟩

/-- C8: over any error-free inbound sequence, the session emits exactly
one `pong` per decoded `ping` frame, whatever else happens in between,
and every `pong` notification is exactly `{"type":"pong","message":"pong"}`. -/
theorem C8_one_pong_per_ping (env : Nat → ProcEnv) (frames : List Inbound)
    (h : Inbound.errFrame ∉ frames) :
    countPongs (websocket_handler env frames) = countPings frames ∧
    ∀ n ∈ websocket_handler env frames, n.typ = "pong" → n = ⟨"pong", "pong", none⟩ := by
  constructor
  · have hc := session_pong_count env frames 0 h
    simpa [websocket_handler, countPongs, List.countP_cons] using hc
  · intro n hn hp
    rcases List.mem_cons.mp hn with h1 | h1
    · subst h1; simp at hp
    · exact session_pong_shape env frames 0 n h1 hp

/-- C8 witness: two pings with a skipped non-text frame in between give
exactly two pongs. -/
theorem C8_one_pong_per_ping_witness :
    Inbound.errFrame ∉ [pingFrame, Inbound.nonText, pingFrame] ∧
    (countPongs (websocket_handler (constEnv ProcStart.fileNotFound)
        [pingFrame, Inbound.nonText, pingFrame]) =
      countPings [pingFrame, Inbound.nonText, pingFrame] ∧
    ∀ n ∈ websocket_handler (constEnv ProcStart.fileNotFound)
        [pingFrame, Inbound.nonText, pingFrame],
      n.typ = "pong" → n = ⟨"pong", "pong", none⟩) :=
  ⟨by decide, C8_one_pong_per_ping (constEnv ProcStart.fileNotFound)
    [pingFrame, Inbound.nonText, pingFrame] (by decide)⟩

/-- C9: an `open` whose `url` is absent, null or whitespace-only trims to
the empty string, is echoed as `Received URL: ` and rejected with one
validation error; no invocation environment is consumed and the loop
continues. -/
theorem C9_empty_url_open (env : Nat → ProcEnv) (uo : Option String) (rest : List Inbound)
    (k : Nat) (h : (pyOrEmpty uo).data.all pyIsSpace = true) :
    pyStrip (pyOrEmpty uo) = "" ∧
    session_loop env (openFrame uo :: rest) k =
      ⟨"log", "Received URL: ", none⟩ :: invalidUrlErr :: session_loop env rest k := by
  have hs : pyStrip (pyOrEmpty uo) = "" := pyStrip_of_all_space _ h
  have hv : is_valid_youtube_url "" = false := by decide
  refine ⟨hs, ?_⟩
  simp [session_loop, openFrame, hs, hv]

/-- C9 witness: `url` consisting of a space, a tab and a no-break space. -/
theorem C9_empty_url_open_witness :
    ((pyOrEmpty (some " \t ")).data.all pyIsSpace = true) ∧
    (pyStrip (pyOrEmpty (some " \t ")) = "" ∧
    session_loop (constEnv ProcStart.fileNotFound) (openFrame (some " \t ") :: []) 0 =
      ⟨"log", "Received URL: ", none⟩ :: invalidUrlErr ::
        session_loop (constEnv ProcStart.fileNotFound) [] 0) :=
  ⟨by decide, C9_empty_url_open (constEnv ProcStart.fileNotFound) (some " \t ") [] 0
    (by decide)⟩

/-- C10: on a validated `open`, the exact string handed to the runner —
and spliced into the third argv element — is the whitespace-trimmed
`url` field, the same string that was echoed and that passed the
validator; no other transformation happens in between. -/
theorem C10_url_passed_verbatim (env : Nat → ProcEnv) (raw : String) (rest : List Inbound)
    (k : Nat) (hv : is_valid_youtube_url (pyStrip raw) = true) :
    session_loop env (openFrame (some raw) :: rest) k =
      ⟨"log", "Received URL: " ++ pyStrip raw, none⟩ ::
        (run_adb_intent (pyStrip raw) (env k).start (env k).sched ++
          session_loop env rest (k + 1)) ∧
    (adbCmd (pyStrip raw))[2]? =
      some (shlexJoin ["am", "start", "-a", "android.intent.action.VIEW", "-d",
                       pyStrip raw, "-p", "com.google.android.youtube.tv"]) := by
  constructor
  · simp [session_loop, openFrame, pyOrEmpty, hv]
  · rfl

/-- C10 witness: an `open` whose URL carries surrounding whitespace. -/
theorem C10_url_passed_verbatim_witness :
    is_valid_youtube_url (pyStrip "  https://www.youtube.com/watch?v=abc ") = true ∧
    (session_loop (constEnv (ProcStart.started [] [] 0))
        (openFrame (some "  https://www.youtube.com/watch?v=abc ") :: []) 0 =
      ⟨"log", "Received URL: " ++ pyStrip "  https://www.youtube.com/watch?v=abc ", none⟩ ::
        (run_adb_intent (pyStrip "  https://www.youtube.com/watch?v=abc ")
            (constEnv (ProcStart.started [] [] 0) 0).start
            (constEnv (ProcStart.started [] [] 0) 0).sched ++
          session_loop (constEnv (ProcStart.started [] [] 0)) [] 1) ∧
    (adbCmd (pyStrip "  https://www.youtube.com/watch?v=abc "))[2]? =
      some (shlexJoin ["am", "start", "-a", "android.intent.action.VIEW", "-d",
                       pyStrip "  https://www.youtube.com/watch?v=abc ", "-p",
                       "com.google.android.youtube.tv"])) :=
  ⟨by decide, C10_url_passed_verbatim (constEnv (ProcStart.started [] [] 0))
    "  https://www.youtube.com/watch?v=abc " [] 0 (by decide)⟩

/-- C6 witness: a ping queued behind a valid `open` with a started
process; the pong follows the invocation's output, which ends in the
`done`. -/
theorem C6_sequential_dispatch_witness :
    is_valid_youtube_url (pyStrip " https://youtu.be/dQw4w9WgXcQ ") = true ∧
    (session_loop (constEnv (ProcStart.started [] [] 0))
        (openFrame (some " https://youtu.be/dQw4w9WgXcQ ") :: pingFrame :: []) 0 =
      ⟨"log", "Received URL: " ++ pyStrip " https://youtu.be/dQw4w9WgXcQ ", none⟩ ::
        (run_adb_intent (pyStrip " https://youtu.be/dQw4w9WgXcQ ")
            (constEnv (ProcStart.started [] [] 0) 0).start
            (constEnv (ProcStart.started [] [] 0) 0).sched ++
          (⟨"pong", "pong", none⟩ ::
            session_loop (constEnv (ProcStart.started [] [] 0)) [] 1)) ∧
    (run_adb_intent (pyStrip " https://youtu.be/dQw4w9WgXcQ ")
        (constEnv (ProcStart.started [] [] 0) 0).start
        (constEnv (ProcStart.started [] [] 0) 0).sched).getLast? =
      some ⟨"done", "Exit code: " ++ toString (0 : Int), some 0⟩) :=
  ⟨by decide, C6_sequential_dispatch (constEnv (ProcStart.started [] [] 0))
    " https://youtu.be/dQw4w9WgXcQ " [] 0 [] [] 0 (by decide) rfl⟩
